import Mathlib

/-!
Verification of the multiplayer game-room subsystem of the stock-ai-platform
repository, shallowly embedded from:

- src/api/app/routes/multiplayer.py (room lifecycle endpoints),
- src/api/app/scheduler.py (sync_auto auto-advance loop),
- src/api/app/models/multiplayer.py (GameRoom and Player records),
- src/api/tests/unit/test_game_engine.py (portfolio valuation formula).

Modelling conventions:

- ISO date strings ("YYYY-MM-DD") are modelled as natural numbers counting
  days from a fixed Monday epoch, so Python's date.weekday() (Mon=0 .. Sun=6)
  is the remainder modulo 7, and datetime.fromisoformat is the identity.
- datetime.utcnow() values are supplied as a natural-number argument `now`.
- Python floats holding money and scores are modelled as rationals; every
  operation the claims touch performs exact decimal arithmetic on them.
- Each HTTPException site is modelled by a constructor of an error taxonomy;
  a handler that raises before committing returns the error with the store
  unchanged.
- The SQLAlchemy store is a list of rooms; query(...).filter(code).first()
  is List.find?, and committing a mutated row replaces it in the list.
-/

deriving instance DecidableEq for Except

inductive RoomStatus
  | waiting
  | in_progress
  | finished
  deriving DecidableEq, Repr

inductive GameMode
  | async
  | sync
  | sync_auto
  deriving DecidableEq, Repr

/-- The JSON config column of a GameRoom: initialCash, numDays, tickers, difficulty. -/
structure GameConfig where
  initialCash : ℚ
  numDays : Int
  tickers : List String
  difficulty : String
  deriving DecidableEq, Repr

/-- One entry of the holdings JSON column: ticker maps to shares and avgCost. -/
structure Holding where
  shares : ℚ
  avgCost : ℚ
  deriving DecidableEq, Repr

/-- The Player row of src/api/app/models/multiplayer.py (columns the claims touch). -/
structure Player where
  player_name : String
  player_email : Option String
  current_day : Int
  is_finished : Bool
  cash : ℚ
  holdings : List (String × Holding)
  portfolio_value : ℚ
  total_return_pct : ℚ
  total_return_usd : ℚ
  score : ℚ
  grade : String
  is_ready : Bool
  last_sync_day : Int
  joined_at : Nat
  finished_at : Option Nat
  deriving DecidableEq, Repr

/-- The GameRoom row of src/api/app/models/multiplayer.py, with its players. -/
structure GameRoom where
  room_code : String
  created_by : String
  room_name : Option String
  config : GameConfig
  start_date : Nat
  end_date : Nat
  current_date : Option Nat
  status : RoomStatus
  game_mode : GameMode
  current_day : Int
  day_time_limit : Option Int
  day_duration_seconds : Option Int
  day_started_at : Option Nat
  started_at : Option Nat
  game_started_at : Option Nat
  game_ended_at : Option Nat
  players : List Player
  deriving DecidableEq, Repr

/-- One constructor per distinct HTTPException site in the handlers the claims touch. -/
inductive ApiError
  | roomNotFound
  | playerNotFound
  | roomFinished
  | duplicatePlayer
  | invalidMode
  | invalidState
  | gameAlreadyFinished
  deriving DecidableEq, Repr

/-- Python date.weekday() in the Monday-epoch day-number model: Mon=0 .. Sun=6. -/
def weekday (d : Nat) : Nat := d % 7

/-- The while-loop of _next_trading_day: step forward while the day is Sat or Sun.
Seven units of fuel are more than the at most two consecutive weekend days the
loop can ever traverse. -/
def skip_weekend : Nat → Nat → Nat
  | 0, d => d
  | fuel + 1, d => if 5 ≤ weekday d then skip_weekend fuel (d + 1) else d

/-- The helper _next_trading_day of src/api/app/routes/multiplayer.py: add one day,
then skip forward past Saturday and Sunday. -/
def next_trading_day (d : Nat) : Nat := skip_weekend 7 (d + 1)

/-- A date is a trading day when its weekday is Mon..Fri. -/
def is_trading_day (d : Nat) : Bool := weekday d < 5

/-- Python str.upper() on one character, for the ASCII letters room codes use. -/
def py_upper_char (c : Char) : Char :=
  if 97 ≤ c.toNat ∧ c.toNat ≤ 122 then Char.ofNat (c.toNat - 32) else c

/-- Python str.upper() on a string of ASCII characters. -/
def py_upper (s : String) : String := String.mk (s.data.map py_upper_char)

/-- The room lookup every handler performs:
query(GameRoom).filter(GameRoom.room_code == code.upper()).first(). -/
def find_room (rooms : List GameRoom) (code : String) : Option GameRoom :=
  rooms.find? (fun r => r.room_code == py_upper code)

/-- Committing a mutated room row: replace the row with that room_code in the store. -/
def update_room (rooms : List GameRoom) (code : String) (newRoom : GameRoom) : List GameRoom :=
  rooms.map (fun r => if r.room_code == code then newRoom else r)

/-- Python truthiness of the optional integer request.day_time_limit: None and 0 are falsy. -/
def py_truthy_int : Option Int → Bool
  | none => false
  | some t => t != 0

/-- The body of the advance_day handler of src/api/app/routes/multiplayer.py after the
room has been looked up: mode and status guards, then the sequence of row mutations
the handler performs before committing. -/
def advance_day_room (room : GameRoom) (day_time_limit_req : Option Int) (now : Nat) :
    Except ApiError GameRoom :=
  if room.game_mode = GameMode.async then
    Except.error ApiError.invalidMode
  else if room.status ≠ RoomStatus.in_progress then
    Except.error ApiError.invalidState
  else
    let current_date_obj :=
      match room.current_date with
      | none => room.start_date
      | some d => d
    let start_dt := room.start_date
    let next_date := next_trading_day current_date_obj
    let new_day : Int := (next_date : Int) - (start_dt : Int)
    let room1 : GameRoom := { room with
      current_date := some next_date
      current_day := new_day
      day_started_at := some now }
    let room2 : GameRoom :=
      if new_day ≥ room.config.numDays then
        { room1 with status := RoomStatus.finished, game_ended_at := some now }
      else room1
    let room3 : GameRoom := { room2 with
      players := room2.players.map (fun p => { p with is_finished := true }) }
    let room4 : GameRoom :=
      if py_truthy_int day_time_limit_req then
        { room3 with day_time_limit := day_time_limit_req }
      else room3
    let room5 : GameRoom := { room4 with
      players := room4.players.map (fun p =>
        { p with is_ready := false, last_sync_day := room4.current_day }) }
    Except.ok room5

/-- The advance_day endpoint over the whole store: look the room up by code, run the
handler body, commit the mutated row on success. -/
def advance_day (rooms : List GameRoom) (code : String) (day_time_limit_req : Option Int)
    (now : Nat) : Except ApiError (List GameRoom) :=
  match find_room rooms code with
  | none => Except.error ApiError.roomNotFound
  | some room =>
      (advance_day_room room day_time_limit_req now).map (update_room rooms room.room_code)

/-- The per-room advance body of check_and_advance_rooms in src/api/app/scheduler.py.
A room whose current_date is unset makes fromisoformat raise; the exception is caught
and the transaction rolled back, leaving the room unchanged. -/
def scheduler_advance_room (room : GameRoom) (now : Nat) : GameRoom :=
  match room.current_date with
  | none => room
  | some c =>
      let next_date := next_trading_day c
      if room.current_day > room.config.numDays then
        { room with
          status := RoomStatus.finished
          game_ended_at := some now
          day_started_at := none }
      else
        { room with
          current_date := some next_date
          current_day := room.current_day + 1
          day_started_at := some now
          players := room.players.map (fun p => { p with is_ready := false }) }

/-- One scheduler tick on one room: the query filter (in_progress, sync_auto, both
timer columns set) together with the elapsed-time threshold check. -/
def tick_room (now : Nat) (room : GameRoom) : GameRoom :=
  if room.status = RoomStatus.in_progress ∧ room.game_mode = GameMode.sync_auto then
    match room.day_started_at, room.day_duration_seconds with
    | some startedAt, some dur =>
        if (now : Int) - (startedAt : Int) ≥ dur then scheduler_advance_room room now else room
    | _, _ => room
  else room

/-- One tick of check_and_advance_rooms over the whole store. -/
def check_and_advance_rooms (rooms : List GameRoom) (now : Nat) : List GameRoom :=
  rooms.map (tick_room now)

/-- Whether one scheduler tick at time now would fire on this room. -/
def room_due (room : GameRoom) (now : Nat) : Bool :=
  decide (room.status = RoomStatus.in_progress) &&
  decide (room.game_mode = GameMode.sync_auto) &&
  match room.day_started_at, room.day_duration_seconds with
  | some startedAt, some dur => decide ((now : Int) - (startedAt : Int) ≥ dur)
  | _, _ => false

/-- The JoinRoomRequest schema of src/api/app/schemas/multiplayer.py. -/
structure JoinRoomRequest where
  room_code : String
  player_name : String
  player_email : Option String
  deriving DecidableEq, Repr

/-- The Player row the join_room handler constructs, seeded with the room's
initialCash; is_ready and last_sync_day take their column defaults. -/
def new_player (room : GameRoom) (req : JoinRoomRequest) (now : Nat) : Player :=
  { player_name := req.player_name
    player_email := req.player_email
    current_day := 0
    is_finished := false
    cash := room.config.initialCash
    holdings := []
    portfolio_value := room.config.initialCash
    total_return_pct := 0
    total_return_usd := 0
    score := 0
    grade := "C"
    is_ready := false
    last_sync_day := 0
    joined_at := now
    finished_at := none }

/-- The room row committed by a successful join: the new player is appended, and in
async mode the first join auto-starts a waiting room. -/
def joined_room (room : GameRoom) (req : JoinRoomRequest) (now : Nat) : GameRoom :=
  let player := new_player room req now
  let room1 : GameRoom := { room with players := room.players ++ [player] }
  if room.status = RoomStatus.waiting ∧ room.players.length = 0 ∧
      room.game_mode = GameMode.async then
    { room1 with status := RoomStatus.in_progress, started_at := some now }
  else room1

/-- The join_room handler of src/api/app/routes/multiplayer.py: not-found, finished
and duplicate-name guards, then the player insert with the async auto-start. A raised
guard returns the store unchanged (no partial mutation). -/
def join_room (rooms : List GameRoom) (req : JoinRoomRequest) (now : Nat) :
    Except ApiError Player × List GameRoom :=
  match find_room rooms req.room_code with
  | none => (Except.error ApiError.roomNotFound, rooms)
  | some room =>
      if room.status = RoomStatus.finished then
        (Except.error ApiError.roomFinished, rooms)
      else if (room.players.find? (fun p => p.player_name == req.player_name)).isSome then
        (Except.error ApiError.duplicatePlayer, rooms)
      else
        (Except.ok (new_player room req now),
          update_room rooms room.room_code (joined_room room req now))

/-- The set_timer handler body after lookup: no status guard, only the mode guard,
then the timer-field mutations. -/
def set_timer_room (room : GameRoom) (duration_seconds : Int) (now : Nat) :
    Except ApiError GameRoom :=
  if room.game_mode = GameMode.async then
    Except.error ApiError.invalidMode
  else
    let room1 : GameRoom := { room with day_time_limit := some duration_seconds }
    let room2 : GameRoom :=
      if room.game_mode = GameMode.sync_auto then
        { room1 with day_duration_seconds := some duration_seconds }
      else room1
    let room3 : GameRoom :=
      if duration_seconds > 0 then { room2 with day_started_at := some now } else room2
    Except.ok room3

/-- The mark_player_ready handler, expressed on the player's room: player lookup and
mode guard, then is_ready := true; there is no room-status guard. -/
def mark_player_ready_room (room : GameRoom) (name : String) : Except ApiError GameRoom :=
  if (room.players.find? (fun p => p.player_name == name)).isNone then
    Except.error ApiError.playerNotFound
  else if room.game_mode = GameMode.async then
    Except.error ApiError.invalidMode
  else
    Except.ok { room with
      players := room.players.map (fun p =>
        if p.player_name == name then { p with is_ready := true } else p) }

/-- The UpdatePlayerStateRequest schema (fields the model carries). -/
structure UpdatePlayerStateRequest where
  current_day : Int
  cash : ℚ
  holdings : List (String × Holding)
  portfolio_value : ℚ
  total_return_pct : ℚ
  total_return_usd : ℚ
  score : ℚ
  grade : String
  is_finished : Bool
  deriving DecidableEq, Repr

/-- The update_player_state handler, expressed on the player's room: player lookup,
then all submitted fields are written verbatim; there is no room-status guard. -/
def update_player_state_room (room : GameRoom) (name : String)
    (req : UpdatePlayerStateRequest) (now : Nat) : Except ApiError GameRoom :=
  if (room.players.find? (fun p => p.player_name == name)).isNone then
    Except.error ApiError.playerNotFound
  else
    Except.ok { room with
      players := room.players.map (fun p =>
        if p.player_name == name then
          { p with
            current_day := req.current_day
            cash := req.cash
            holdings := req.holdings
            portfolio_value := req.portfolio_value
            total_return_pct := req.total_return_pct
            total_return_usd := req.total_return_usd
            score := req.score
            grade := req.grade
            is_finished := req.is_finished
            finished_at := if req.is_finished then some now else p.finished_at }
        else p) }

/-- The end_game handler body after lookup: reject already-finished rooms, else force
the room to finished and mark every player finished. -/
def end_game_room (room : GameRoom) (now : Nat) : Except ApiError GameRoom :=
  if room.status = RoomStatus.finished then
    Except.error ApiError.gameAlreadyFinished
  else
    Except.ok { room with
      status := RoomStatus.finished
      game_ended_at := some now
      players := room.players.map (fun p => { p with is_finished := true }) }

/-- One row of the leaderboard response. -/
structure LeaderboardEntry where
  rank : Nat
  player_name : String
  score : ℚ
  grade : String
  portfolio_value : ℚ
  total_return_pct : ℚ
  current_day : Int
  is_finished : Bool
  deriving DecidableEq, Repr

/-- Stable descending insertion by score: the new element goes in front of the first
stored element whose score does not exceed it. -/
def insert_by_score_desc (p : Player) : List Player → List Player
  | [] => [p]
  | q :: rest =>
      if q.score ≤ p.score then p :: q :: rest else q :: insert_by_score_desc p rest

/-- The ORDER BY score DESC of the leaderboard query, modelled as a stable sort:
players with equal scores keep their stored order, since the query names no other
sort key. -/
def sort_by_score_desc : List Player → List Player
  | [] => []
  | p :: rest => insert_by_score_desc p (sort_by_score_desc rest)

/-- The get_leaderboard handler body after lookup: sort by score descending and
number the rows from 1 (enumerate(players, start=1)). -/
def get_leaderboard (room : GameRoom) : List LeaderboardEntry :=
  (sort_by_score_desc room.players).enum.map (fun ip =>
    { rank := ip.1 + 1
      player_name := ip.2.player_name
      score := ip.2.score
      grade := ip.2.grade
      portfolio_value := ip.2.portfolio_value
      total_return_pct := ip.2.total_return_pct
      current_day := ip.2.current_day
      is_finished := ip.2.is_finished })

/-- The get_leaderboard endpoint over the store. -/
def get_leaderboard_endpoint (rooms : List GameRoom) (code : String) :
    Except ApiError (List LeaderboardEntry) :=
  match find_room rooms code with
  | none => Except.error ApiError.roomNotFound
  | some room => Except.ok (get_leaderboard room)

/-- The holdings-value sum of test_holdings_always_reconcile in
src/api/tests/unit/test_game_engine.py: shares times current price per held ticker. -/
def holdings_value (holdings : List (String × Holding)) (current_prices : String → ℚ) : ℚ :=
  (holdings.map (fun th => th.2.shares * current_prices th.1)).sum

/-- Portfolio valuation: cash plus the holdings value. -/
def portfolio_value (cash : ℚ) (holdings : List (String × Holding))
    (current_prices : String → ℚ) : ℚ :=
  cash + holdings_value holdings current_prices

/-- A freshly joined player fixture with the column defaults. -/
def base_player (name : String) : Player :=
  { player_name := name
    player_email := none
    current_day := 0
    is_finished := false
    cash := 100000
    holdings := []
    portfolio_value := 100000
    total_return_pct := 0
    total_return_usd := 0
    score := 0
    grade := "C"
    is_ready := false
    last_sync_day := 0
    joined_at := 0
    finished_at := none }

def base_config : GameConfig :=
  { initialCash := 100000, numDays := 5, tickers := ["AAPL", "MSFT"], difficulty := "normal" }

/-- A started sync room on day 0 of a five-day game beginning on a Monday (date 0). -/
def base_room : GameRoom :=
  { room_code := "ABC123"
    created_by := "teacher"
    room_name := none
    config := base_config
    start_date := 0
    end_date := 30
    current_date := some 0
    status := RoomStatus.in_progress
    game_mode := GameMode.sync
    current_day := 0
    day_time_limit := none
    day_duration_seconds := none
    day_started_at := some 0
    started_at := none
    game_started_at := some 0
    game_ended_at := none
    players := [base_player "Alice"] }

/-- A sync_auto room of a ten-day game on day 4, a Friday, with its timer elapsed. -/
def c2_room : GameRoom :=
  { base_room with
    game_mode := GameMode.sync_auto
    config := { base_config with numDays := 10 }
    current_date := some 4
    current_day := 4
    day_duration_seconds := some 5
    day_started_at := some 0
    players := [{ base_player "Alice" with last_sync_day := 4 }] }

/-- The same pre-state with numDays = 5, so the manual path finishes the game. -/
def c2_room_b : GameRoom :=
  { c2_room with config := { base_config with numDays := 5 } }

/-- A finished sync room. -/
def c3_room : GameRoom :=
  { base_room with status := RoomStatus.finished, game_ended_at := some 40 }

def c3_update : UpdatePlayerStateRequest :=
  { current_day := 3
    cash := 90000
    holdings := []
    portfolio_value := 90000
    total_return_pct := -10
    total_return_usd := -10000
    score := 10
    grade := "B"
    is_finished := false }

/-- C1: the claim says a successful advance sets is_finished only for players who
reached the terminal day. Here the room advances to day 1 of a 5-day game, so no
player is at the terminal day and the room stays in_progress, yet the handler marks
its (day-0, unfinished) player finished. -/
theorem C1_advance_marks_nonterminal_player_finished :
    base_room.players.map (fun p => (p.current_day, p.is_finished)) = [((0 : Int), false)]
    ∧ (advance_day_room base_room none 100).map
        (fun r => (r.current_day, r.status, r.players.map Player.is_finished))
      = Except.ok ((1 : Int), RoomStatus.in_progress, [true])
    ∧ (1 : Int) < base_room.config.numDays := by
  decide

/-- C2: the claim says a scheduler tick and the manual advance endpoint compute the
same post-state from the same pre-state. On c2_room (day 4, a Friday) the manual path
jumps to current_day 7 (calendar-day delta over the weekend) and rewrites every
player's last_sync_day to 7, while the elapsed scheduler tick computes current_day 5
and leaves last_sync_day at 4; on c2_room_b (5-day game) the manual path finishes the
room while the scheduler tick leaves it in_progress. -/
theorem C2_manual_and_scheduled_advance_disagree :
    (advance_day_room c2_room none 10).map
        (fun r => (r.current_day, r.players.map Player.last_sync_day))
      = Except.ok ((7 : Int), [(7 : Int)])
    ∧ (check_and_advance_rooms [c2_room] 10).map
        (fun r => (r.current_day, r.players.map Player.last_sync_day))
      = [((5 : Int), [(4 : Int)])]
    ∧ (advance_day_room c2_room_b none 10).map (fun r => r.status)
      = Except.ok RoomStatus.finished
    ∧ (check_and_advance_rooms [c2_room_b] 10).map (fun r => (r.status, r.current_day))
      = [(RoomStatus.in_progress, (5 : Int))] := by
  decide

/-- C3: the claim says no operation changes any field of a finished room or its
players. On the finished room c3_room, set_timer succeeds and writes day_time_limit
and day_started_at, mark_ready succeeds and flips the player's is_ready, and
update_player_state succeeds and rewrites the player's state: none of these handlers
checks the finished status. -/
theorem C3_finished_room_still_mutable :
    c3_room.status = RoomStatus.finished
    ∧ c3_room.day_time_limit = none
    ∧ (set_timer_room c3_room 60 50).map (fun r => (r.day_time_limit, r.day_started_at))
      = Except.ok (some (60 : Int), some (50 : Nat))
    ∧ c3_room.players.map Player.is_ready = [false]
    ∧ (mark_player_ready_room c3_room "Alice").map (fun r => r.players.map Player.is_ready)
      = Except.ok [true]
    ∧ c3_room.players.map Player.current_day = [(0 : Int)]
    ∧ (update_player_state_room c3_room "Alice" c3_update 60).map
        (fun r => r.players.map Player.current_day)
      = Except.ok [(3 : Int)] := by
  decide

/-- C5 counterexample: a scheduled advance that fires moves c2_room to current_day 5
but leaves the player's last_sync_day at 4, so not every successful advance sets
every player's last_sync_day to the room's new current_day. -/
theorem C5_scheduled_advance_skips_last_sync_day :
    room_due c2_room 10 = true
    ∧ (tick_room 10 c2_room).current_day = 5
    ∧ (tick_room 10 c2_room).players.map Player.last_sync_day = [(4 : Int)]
    ∧ (tick_room 10 c2_room).players.map Player.is_ready = [false] := by
  decide

/-- Two players with equal scores: A finished later (time 100) but is stored first,
B finished earlier (time 50) and is stored second. -/
def c6_player_a : Player := { base_player "A" with score := 10, finished_at := some 100 }

def c6_player_b : Player := { base_player "B" with score := 10, finished_at := some 50 }

def c6_room : GameRoom := { base_room with players := [c6_player_a, c6_player_b] }

/-- C6 counterexample: the claim says score ties are broken by finished_at ascending,
which would rank B (finished at 50) above A (finished at 100). The query orders by
score alone, so the tied players keep their stored order and A outranks B. -/
theorem C6_ties_not_broken_by_finished_at :
    c6_player_a.score = c6_player_b.score
    ∧ c6_player_a.finished_at = some 100
    ∧ c6_player_b.finished_at = some 50
    ∧ (get_leaderboard c6_room).map (fun e => (e.rank, e.player_name))
      = [(1, "A"), (2, "B")] := by
  decide

/-- Closed form of _next_trading_day: Friday jumps three days to Monday, Saturday
two, and every other day one. -/
theorem next_trading_day_eq (d : Nat) :
    next_trading_day d =
      if d % 7 = 4 then d + 3 else if d % 7 = 5 then d + 2 else d + 1 := by
  simp only [next_trading_day, skip_weekend, weekday]
  split_ifs <;> omega

/-- The post-advance room of base_room advanced at time 100: day 1, Tuesday, with
the player marked finished and resynchronized. -/
def c5_room_after : GameRoom :=
  { base_room with
    current_date := some 1
    current_day := 1
    day_started_at := some 100
    players := [{ base_player "Alice" with
      is_finished := true
      is_ready := false
      last_sync_day := 1 }] }

/-- C7: after a successful manual advance from a set current_date c, the room's new
current_date is next_trading_day c, which is a weekday and the smallest weekday
strictly greater than c. -/
theorem C7_advance_moves_to_next_weekday (room nextRoom : GameRoom) (req : Option Int)
    (now : Nat) (c : Nat)
    (hc : room.current_date = some c)
    (h : advance_day_room room req now = Except.ok nextRoom) :
    nextRoom.current_date = some (next_trading_day c)
    ∧ is_trading_day (next_trading_day c) = true
    ∧ c < next_trading_day c
    ∧ ∀ e, c < e → is_trading_day e = true → next_trading_day c ≤ e := by
  refine ⟨?_, ?_, ?_, ?_⟩
  · simp only [advance_day_room, hc] at h
    split_ifs at h <;>
      first
        | exact Except.noConfusion h
        | (rw [Except.ok.injEq] at h; subst h; rfl)
  · rw [is_trading_day, weekday, next_trading_day_eq]
    split_ifs <;> simp <;> omega
  · rw [next_trading_day_eq]
    split_ifs <;> omega
  · intro e he ht
    rw [is_trading_day, weekday] at ht
    rw [next_trading_day_eq]
    have ht5 : e % 7 < 5 := by
      by_contra hcon
      simp [Nat.not_lt.mp hcon, Nat.not_lt] at ht
      omega
    split_ifs <;> omega

/-- C7 witness: base_room sits on Monday (date 0); its advance moves it to Tuesday
(date 1), the smallest weekday after Monday. -/
theorem C7_advance_moves_to_next_weekday_witness :
    c5_room_after.current_date = some (next_trading_day 0)
    ∧ is_trading_day (next_trading_day 0) = true
    ∧ 0 < next_trading_day 0
    ∧ ∀ e, 0 < e → is_trading_day e = true → next_trading_day 0 ≤ e :=
  C7_advance_moves_to_next_weekday base_room c5_room_after none 100 0 (by decide) (by decide)

/-- C4: on a finished room, the manual advance handler rejects the request before
mutating anything (its guards precede every field write), and a scheduler tick leaves
the room untouched because its query filters on status in_progress. -/
theorem C4_advance_noop_on_finished (room : GameRoom) (req : Option Int) (now : Nat)
    (h : room.status = RoomStatus.finished) :
    (∃ e, advance_day_room room req now = Except.error e)
    ∧ tick_room now room = room
    ∧ check_and_advance_rooms [room] now = [room] := by
  have htick : tick_room now room = room := by
    unfold tick_room
    rw [if_neg]
    rintro ⟨hs, -⟩
    rw [h] at hs
    exact RoomStatus.noConfusion hs
  refine ⟨?_, htick, ?_⟩
  · unfold advance_day_room
    by_cases hm : room.game_mode = GameMode.async
    · exact ⟨ApiError.invalidMode, by rw [if_pos hm]⟩
    · refine ⟨ApiError.invalidState, ?_⟩
      rw [if_neg hm, if_pos (show room.status ≠ RoomStatus.in_progress by simp [h])]
  · unfold check_and_advance_rooms
    simp [htick]

/-- C4 witness: the finished room c3_room is rejected by the manual handler and
unchanged by a scheduler tick. -/
theorem C4_advance_noop_on_finished_witness :
    (∃ e, advance_day_room c3_room none 99 = Except.error e)
    ∧ tick_room 99 c3_room = c3_room
    ∧ check_and_advance_rooms [c3_room] 99 = [c3_room] :=
  C4_advance_noop_on_finished c3_room none 99 (by decide)

/-- A predicate evaluated on the committed room of a successful handler result;
trivially true when the handler rejected the request. -/
def on_ok (res : Except ApiError GameRoom) (q : GameRoom → Prop) : Prop :=
  match res with
  | Except.ok r => q r
  | Except.error _ => True

/-- C5 amended: every successful manual advance resets every player to is_ready=false
and last_sync_day = the room's new current_day in the same step; a scheduler advance
that fires on a room it actually moves forward resets every player's is_ready to
false but leaves last_sync_day untouched. -/
theorem C5_advance_resets_ready_and_syncs (room : GameRoom) (req : Option Int) (now : Nat) :
    on_ok (advance_day_room room req now) (fun r =>
      r.players.map (fun p => (p.is_ready, p.last_sync_day))
        = room.players.map (fun _ => (false, r.current_day)))
    ∧ (room_due room now = true → room.current_day ≤ room.config.numDays →
        ∀ c, room.current_date = some c →
          (tick_room now room).players.map (fun p => (p.is_ready, p.last_sync_day))
            = room.players.map (fun p => (false, p.last_sync_day))) := by
  constructor
  · simp only [advance_day_room]
    split_ifs <;> simp only [on_ok, List.map_map] <;> trivial
  · intro hdue hle c hc
    rcases hsa : room.day_started_at with _ | t <;>
      rcases hdd : room.day_duration_seconds with _ | dur <;>
        simp [room_due, hsa, hdd] at hdue
    obtain ⟨⟨hs, hm⟩, helapsed⟩ := hdue
    have htick : tick_room now room = scheduler_advance_room room now := by
      unfold tick_room
      rw [if_pos ⟨hs, hm⟩, hsa, hdd]
      exact if_pos helapsed
    have hadv : scheduler_advance_room room now =
        { room with
          current_date := some (next_trading_day c)
          current_day := room.current_day + 1
          day_started_at := some now
          players := room.players.map (fun p => { p with is_ready := false }) } := by
      unfold scheduler_advance_room
      rw [hc]
      exact if_neg (by omega)
    rw [htick, hadv]
    simp only [List.map_map]
    rfl

/-- C5 witness: the manual advance of base_room at time 100 resynchronizes its player
to the new day, and the fired scheduler tick on c2_room resets is_ready while keeping
last_sync_day. -/
theorem C5_advance_resets_ready_and_syncs_witness :
    on_ok (advance_day_room base_room none 100) (fun r =>
      r.players.map (fun p => (p.is_ready, p.last_sync_day))
        = base_room.players.map (fun _ => (false, r.current_day)))
    ∧ (tick_room 10 c2_room).players.map (fun p => (p.is_ready, p.last_sync_day))
      = c2_room.players.map (fun p => (false, p.last_sync_day)) :=
  ⟨(C5_advance_resets_ready_and_syncs base_room none 100).1,
   (C5_advance_resets_ready_and_syncs c2_room none 10).2 (by decide) (by decide) 4 (by decide)⟩

theorem mem_insert_by_score_desc {x p : Player} {l : List Player} :
    x ∈ insert_by_score_desc p l ↔ x = p ∨ x ∈ l := by
  induction l with
  | nil => simp [insert_by_score_desc]
  | cons q rest ih =>
      simp only [insert_by_score_desc]
      split_ifs
      · simp [List.mem_cons]
      · simp only [List.mem_cons, ih]
        tauto

theorem sorted_insert_by_score_desc (p : Player) (l : List Player)
    (h : l.Pairwise (fun a b => b.score ≤ a.score)) :
    (insert_by_score_desc p l).Pairwise (fun a b => b.score ≤ a.score) := by
  induction l with
  | nil => simp [insert_by_score_desc]
  | cons q rest ih =>
      rw [List.pairwise_cons] at h
      obtain ⟨hq, hrest⟩ := h
      simp only [insert_by_score_desc]
      split_ifs with hle
      · rw [List.pairwise_cons]
        refine ⟨?_, List.pairwise_cons.mpr ⟨hq, hrest⟩⟩
        intro x hx
        rcases List.mem_cons.mp hx with rfl | hx
        · exact hle
        · exact le_trans (hq x hx) hle
      · rw [List.pairwise_cons]
        refine ⟨?_, ih hrest⟩
        intro x hx
        rcases mem_insert_by_score_desc.mp hx with rfl | hx
        · exact le_of_not_le hle
        · exact hq x hx

theorem perm_insert_by_score_desc (p : Player) (l : List Player) :
    (insert_by_score_desc p l).Perm (p :: l) := by
  induction l with
  | nil => exact List.Perm.refl _
  | cons q rest ih =>
      simp only [insert_by_score_desc]
      split_ifs
      · exact List.Perm.refl _
      · exact (ih.cons q).trans (List.Perm.swap p q rest)

theorem perm_sort_by_score_desc (l : List Player) : (sort_by_score_desc l).Perm l := by
  induction l with
  | nil => exact List.Perm.refl _
  | cons p rest ih =>
      exact (perm_insert_by_score_desc p (sort_by_score_desc rest)).trans (ih.cons p)

theorem sorted_sort_by_score_desc (l : List Player) :
    (sort_by_score_desc l).Pairwise (fun a b => b.score ≤ a.score) := by
  induction l with
  | nil => simp [sort_by_score_desc]
  | cons p rest ih => exact sorted_insert_by_score_desc p _ ih

theorem snd_mem_of_mem_enumFrom {α : Type} {x : Nat × α} {n : Nat} {l : List α}
    (h : x ∈ List.enumFrom n l) : x.2 ∈ l := by
  induction l generalizing n with
  | nil => simp [List.enumFrom] at h
  | cons a rest ih =>
      rw [List.enumFrom] at h
      rcases List.mem_cons.mp h with rfl | h
      · exact List.mem_cons_self a rest
      · exact List.mem_cons_of_mem a (ih h)

theorem pairwise_enumFrom {α : Type} {R : α → α → Prop} {l : List α}
    (h : l.Pairwise R) (n : Nat) :
    (List.enumFrom n l).Pairwise (fun a b => R a.2 b.2) := by
  induction l generalizing n with
  | nil => simp [List.enumFrom]
  | cons p rest ih =>
      rw [List.pairwise_cons] at h
      obtain ⟨hp, hrest⟩ := h
      rw [List.enumFrom, List.pairwise_cons]
      exact ⟨fun x hx => hp x.2 (snd_mem_of_mem_enumFrom hx), ih hrest (n + 1)⟩

theorem enumFrom_map_rank {α : Type} (l : List α) (n : Nat) :
    (List.enumFrom n l).map (fun ip => ip.1 + 1) = List.range' (n + 1) l.length := by
  induction l generalizing n with
  | nil => simp [List.enumFrom]
  | cons a rest ih =>
      rw [List.enumFrom, List.map_cons, List.length_cons, List.range'_succ, ih (n + 1)]

theorem enumFrom_map_snd_fun {α β : Type} (l : List α) (n : Nat) (f : α → β) :
    (List.enumFrom n l).map (fun ip => f ip.2) = l.map f := by
  induction l generalizing n with
  | nil => simp [List.enumFrom]
  | cons a rest ih =>
      rw [List.enumFrom, List.map_cons, List.map_cons, ih (n + 1)]

/-- C6 amended: the leaderboard is sorted by score descending with 1-indexed
contiguous ranks over exactly the room's players, and recomputing it from unchanged
inputs is deterministic; equal-score ties keep the stored player order (they are not
broken by finished_at). -/
theorem C6_leaderboard_sorted_ranked_deterministic (room : GameRoom) :
    (get_leaderboard room).Pairwise (fun a b => b.score ≤ a.score)
    ∧ (get_leaderboard room).map (fun e => e.rank) = List.range' 1 room.players.length
    ∧ ((get_leaderboard room).map (fun e => e.player_name)).Perm
        (room.players.map (fun p => p.player_name))
    ∧ get_leaderboard room = get_leaderboard room := by
  refine ⟨?_, ?_, ?_, rfl⟩
  · unfold get_leaderboard
    rw [List.pairwise_map]
    exact pairwise_enumFrom (sorted_sort_by_score_desc room.players) 0
  · unfold get_leaderboard
    rw [List.map_map]
    have h := enumFrom_map_rank (sort_by_score_desc room.players) 0
    rw [(perm_sort_by_score_desc room.players).length_eq] at h
    exact h
  · have heq : (get_leaderboard room).map (fun e => e.player_name)
        = (sort_by_score_desc room.players).map (fun p => p.player_name) := by
      unfold get_leaderboard
      rw [List.map_map]
      exact enumFrom_map_snd_fun (sort_by_score_desc room.players) 0 (fun p => p.player_name)
    rw [heq]
    exact (perm_sort_by_score_desc room.players).map (fun p => p.player_name)

/-- The concrete price map of the reconciliation unit test. -/
def c9_prices (t : String) : ℚ := if t = "AAPL" then 160 else if t = "MSFT" then 320 else 0

/-- C9: portfolio valuation is cash plus the sum over held tickers of shares times
that ticker's current price, and on the test fixture (cash 5000, 10 AAPL shares at
160, 5 MSFT shares at 320) it is exactly 8200. -/
theorem C9_portfolio_valuation :
    (∀ (cash : ℚ) (holdings : List (String × Holding)) (prices : String → ℚ),
      portfolio_value cash holdings prices
        = cash + (holdings.map (fun th => th.2.shares * prices th.1)).sum)
    ∧ portfolio_value 5000
        [("AAPL", { shares := 10, avgCost := 150 }), ("MSFT", { shares := 5, avgCost := 300 })]
        c9_prices = 8200 := by
  constructor
  · intro cash holdings prices
    rfl
  · norm_num [portfolio_value, holdings_value, c9_prices,
      eq_false (show ("MSFT" : String) ≠ "AAPL" by decide)]

theorem toNat_ofNatAux (n : Nat) (h : n.isValidChar) : (Char.ofNatAux n h).toNat = n := rfl

theorem py_upper_char_idem (c : Char) : py_upper_char (py_upper_char c) = py_upper_char c := by
  unfold py_upper_char
  split_ifs with h1 h2
  · exfalso
    obtain ⟨h1a, h1b⟩ := h1
    have hv : (c.toNat - 32).isValidChar := Or.inl (by omega)
    rw [Char.ofNat, dif_pos hv, toNat_ofNatAux] at h2
    omega
  · rfl
  · rfl

theorem map_py_upper_char_idem (l : List Char) :
    (l.map py_upper_char).map py_upper_char = l.map py_upper_char := by
  induction l with
  | nil => rfl
  | cons a t ih => simp only [List.map_cons, py_upper_char_idem, ih]

theorem py_upper_idem (s : String) : py_upper (py_upper s) = py_upper s :=
  congrArg String.mk (map_py_upper_char_idem s.data)

/-- Looking a room up by any spelling of a code is the same as looking it up by the
uppercased spelling, because the lookup uppercases its argument and upper is
idempotent. -/
theorem find_room_py_upper (rooms : List GameRoom) (code : String) :
    find_room rooms code = find_room rooms (py_upper code) := by
  unfold find_room
  rw [py_upper_idem]

/-- C10: every lookup-based endpoint uppercases the supplied room code before
matching, so any mixed-case spelling of a stored code reaches the same room and
produces the same response as the uppercase spelling. -/
theorem C10_lookup_uppercases_room_code (rooms : List GameRoom) (code : String)
    (dtl : Option Int) (now : Nat) :
    find_room rooms code = find_room rooms (py_upper code)
    ∧ advance_day rooms code dtl now = advance_day rooms (py_upper code) dtl now
    ∧ get_leaderboard_endpoint rooms code = get_leaderboard_endpoint rooms (py_upper code)
    ∧ ∀ (name : String) (email : Option String),
        join_room rooms { room_code := code, player_name := name, player_email := email } now
          = join_room rooms
              { room_code := py_upper code, player_name := name, player_email := email } now := by
  refine ⟨find_room_py_upper rooms code, ?_, ?_, ?_⟩
  · unfold advance_day
    rw [find_room_py_upper]
  · unfold get_leaderboard_endpoint
    rw [find_room_py_upper]
  · intro name email
    unfold join_room
    have h1 : ({ room_code := code, player_name := name, player_email := email } :
        JoinRoomRequest).room_code = code := rfl
    have h2 : ({ room_code := py_upper code, player_name := name, player_email := email } :
        JoinRoomRequest).room_code = py_upper code := rfl
    rw [h1, h2, find_room_py_upper]
    rfl

/-- Replacing the found room by a row with the same room_code makes any later lookup
by the same supplied code return the replacement. -/
theorem find_room_update_room (rooms : List GameRoom) (code : String)
    (room newRoom : GameRoom)
    (h : find_room rooms code = some room) (hcode : newRoom.room_code = room.room_code) :
    find_room (update_room rooms room.room_code newRoom) code = some newRoom := by
  induction rooms with
  | nil => simp [find_room] at h
  | cons r rest ih =>
      by_cases hr : (r.room_code == py_upper code) = true
      · have hrr : r = room := by
          unfold find_room at h
          rw [List.find?_cons_of_pos rest hr] at h
          exact Option.some.inj h
        subst hrr
        unfold find_room update_room
        rw [List.map_cons, if_pos (beq_self_eq_true r.room_code)]
        exact List.find?_cons_of_pos _ (by rw [hcode]; exact hr)
      · have hrest : find_room rest code = some room := by
          unfold find_room at h ⊢
          rwa [List.find?_cons_of_neg rest hr] at h
      
        have hne : ¬ (r.room_code == room.room_code) = true := by
          intro hcon
          apply hr
          rw [beq_iff_eq.mp hcon]
          exact List.find?_some (p := fun q : GameRoom => q.room_code == py_upper code) hrest
        unfold find_room update_room
        rw [List.map_cons, if_neg hne]
        rw [List.find?_cons_of_neg (p := fun q : GameRoom => q.room_code == py_upper code) _ hr]
        exact ih hrest

/-- C8: join answers not-found for an unknown code, room-finished for a finished
room, and duplicate-player for a taken name; every failed join leaves the store
unchanged (creates no player); and a successful join followed by a second join with
the same name yields the duplicate-player conflict. -/
theorem C8_join_error_behavior (rooms : List GameRoom) (req : JoinRoomRequest)
    (now now2 : Nat) :
    (find_room rooms req.room_code = none →
      join_room rooms req now = (Except.error ApiError.roomNotFound, rooms))
    ∧ (∀ room, find_room rooms req.room_code = some room →
        room.status = RoomStatus.finished →
        join_room rooms req now = (Except.error ApiError.roomFinished, rooms))
    ∧ (∀ room, find_room rooms req.room_code = some room →
        room.status ≠ RoomStatus.finished →
        (room.players.find? (fun p => p.player_name == req.player_name)).isSome = true →
        join_room rooms req now = (Except.error ApiError.duplicatePlayer, rooms))
    ∧ (∀ e, (join_room rooms req now).1 = Except.error e → (join_room rooms req now).2 = rooms)
    ∧ (∀ p, (join_room rooms req now).1 = Except.ok p →
        (join_room ((join_room rooms req now).2) req now2).1
          = Except.error ApiError.duplicatePlayer) := by
  refine ⟨?_, ?_, ?_, ?_, ?_⟩
  · intro h
    unfold join_room
    simp only [h]
  · intro room hfind hfin
    unfold join_room
    simp only [hfind]
    rw [if_pos hfin]
  · intro room hfind hfin hdup
    unfold join_room
    simp only [hfind]
    rw [if_neg hfin, if_pos hdup]
  · intro e he
    unfold join_room at he ⊢
    cases hfind : find_room rooms req.room_code with
    | none => simp only [hfind]
    | some room =>
        simp only [hfind] at he ⊢
        split_ifs at he ⊢ <;> first | rfl | simp at he
  · intro p hok
    cases hfind : find_room rooms req.room_code with
    | none =>
        unfold join_room at hok
        simp only [hfind] at hok
        exact Except.noConfusion hok
    | some room =>
        unfold join_room at hok
        simp only [hfind] at hok
        by_cases hfin : room.status = RoomStatus.finished
        · rw [if_pos hfin] at hok
          exact Except.noConfusion hok
        · rw [if_neg hfin] at hok
          by_cases hdup :
              (room.players.find? (fun q => q.player_name == req.player_name)).isSome = true
          · rw [if_pos hdup] at hok
            exact Except.noConfusion hok
          · rw [if_neg hdup] at hok
            have hstore : (join_room rooms req now).2
                = update_room rooms room.room_code (joined_room room req now) := by
              unfold join_room
              simp only [hfind]
              rw [if_neg hfin, if_neg hdup]
            rw [hstore]
            have hcode : (joined_room room req now).room_code = room.room_code := by
              unfold joined_room
              split_ifs <;> rfl
            have hfind2 : find_room (update_room rooms room.room_code (joined_room room req now))
                req.room_code = some (joined_room room req now) :=
              find_room_update_room rooms req.room_code room (joined_room room req now) hfind hcode
            have hfin2 : ¬ (joined_room room req now).status = RoomStatus.finished := by
              unfold joined_room
              split_ifs <;> first | exact hfin | decide | simp
            have hdup2 : ((joined_room room req now).players.find?
                (fun q => q.player_name == req.player_name)).isSome = true := by
              have hp : (joined_room room req now).players
                  = room.players ++ [new_player room req now] := by
                unfold joined_room
                split_ifs <;> rfl
              rw [hp, List.find?_isSome]
              refine ⟨new_player room req now, List.mem_append_right _ ?_, ?_⟩
              · exact List.mem_singleton_self _
              · exact beq_self_eq_true req.player_name
            unfold join_room
            simp only [hfind2]
            rw [if_neg hfin2, if_pos hdup2]

def c8_req_unknown : JoinRoomRequest :=
  { room_code := "ZZZZZZ", player_name := "Alice", player_email := none }

def c8_req_alice : JoinRoomRequest :=
  { room_code := "ABC123", player_name := "Alice", player_email := none }

def c8_req_bob : JoinRoomRequest :=
  { room_code := "ABC123", player_name := "Bob", player_email := none }

/-- C8 witness: the unknown code ZZZZZZ is rejected, joining the finished c3_room is
rejected, re-joining base_room as its existing player Alice is the duplicate
conflict, the failed join leaves the store unchanged, and joining as Bob succeeds
once and conflicts the second time. -/
theorem C8_join_error_behavior_witness :
    join_room [base_room] c8_req_unknown 50 = (Except.error ApiError.roomNotFound, [base_room])
    ∧ join_room [c3_room] c8_req_alice 50 = (Except.error ApiError.roomFinished, [c3_room])
    ∧ join_room [base_room] c8_req_alice 50
      = (Except.error ApiError.duplicatePlayer, [base_room])
    ∧ (join_room [c3_room] c8_req_alice 50).2 = [c3_room]
    ∧ (join_room ((join_room [base_room] c8_req_bob 50).2) c8_req_bob 60).1
      = Except.error ApiError.duplicatePlayer :=
  ⟨(C8_join_error_behavior [base_room] c8_req_unknown 50 60).1 (by decide),
   (C8_join_error_behavior [c3_room] c8_req_alice 50 60).2.1 c3_room (by decide) (by decide),
   (C8_join_error_behavior [base_room] c8_req_alice 50 60).2.2.1 base_room (by decide)
     (by decide) (by decide),
   (C8_join_error_behavior [c3_room] c8_req_alice 50 60).2.2.2.1 ApiError.roomFinished
     (by decide),
   (C8_join_error_behavior [base_room] c8_req_bob 50 60).2.2.2.2
     (new_player base_room c8_req_bob 50) (by decide)⟩
